import Mathlib

/-!
Shallow embedding of the OpenDict IPC core (transcribe_server.py,
validation.py, security.py) together with theorems settling the frozen
claims about it.

Conventions used throughout:
- Python strings are modelled either as Lean `String` (validation layer)
  or as `List Char` (security layer, where byte-level alteration of
  tokens must be reasoned about); bytes are `Nat`.
- `time.time()` values are modelled as `Int`: the code only adds offsets
  and compares, so any linearly ordered time domain is faithful.
- External libraries (json, base64, hmac/hashlib, re, mimetypes, the OS
  filesystem, the NeMo model) are modelled as explicit oracle parameters;
  everything written in the repository itself is translated directly.
-/

namespace OpenDict

/-! ## transcribe_server.py -/

/-- The loaded inference resource: `model.transcribe([path])[0].text`,
abstracted to one path in / one text out; `Except.error` models the
underlying resource raising during inference (anything raised inside the
inner try of handle_client's transcribe branch). -/
def NemoModel := String → Except String String

/-- `TranscriptionServer` mutable state: `self.model` and `self.running`
(the socket object carries no modelled state). -/
structure Server where
  model : Option NemoModel
  running : Bool

/-- The JSON responses built by handle_client:
`{"status": "success", "text": t}`, `{"status": "error", "error": e}`,
`{"status": "shutdown"}`. -/
inductive Response
  | success (text : String)
  | error (msg : String)
  | shutdown
deriving DecidableEq, Repr

/-- What the client observes from one handle_client call: either a JSON
response was sent before closing, or the socket was closed with nothing
written back (the outer `except` path). -/
inductive ClientOutcome
  | closedNoResponse
  | responded (r : Response)
deriving DecidableEq, Repr

/-- A parsed JSON request object. `none` fields model absent keys
(`request["action"]` / `request["audio_file"]` raise KeyError when
absent). Other keys of the dict are never read by handle_client. -/
structure Request where
  action : Option String
  audio_file : Option String
deriving DecidableEq, Repr

/-- `TranscriptionServer.transcribe_audio`, instrumented: the second
component records the paths passed to the underlying
`self.model.transcribe` call (empty when the model guard raises first). -/
def transcribe_audio (s : Server) (audio_file_path : String) :
    Except String String × List String :=
  match s.model with
  | none => (.error "Model not loaded", [])
  | some m => (m audio_file_path, [audio_file_path])

/-- Result of `TranscriptionServer.handle_client`: the server state after
the call, what was sent to the client, and the paths passed to the
underlying model's transcribe. -/
structure HandleResult where
  server : Server
  outcome : ClientOutcome
  modelCalls : List String

/-- `TranscriptionServer.handle_client` on one connection. The argument
`parsed` is the outcome of `json.loads(data)`: `none` when parsing
raised. A missing `"action"` or (for transcribe) missing `"audio_file"`
key raises KeyError, which the outer `except` swallows, so the connection
closes with no response. The temp-file write and `socket.send` are
modelled as succeeding (external OS effects). -/
def handle_client (s : Server) (parsed : Option Request) : HandleResult :=
  match parsed with
  | none => ⟨s, .closedNoResponse, []⟩
  | some req =>
    match req.action with
    | none => ⟨s, .closedNoResponse, []⟩
    | some a =>
      if a = "transcribe" then
        match req.audio_file with
        | none => ⟨s, .closedNoResponse, []⟩
        | some audio_file =>
          match transcribe_audio s audio_file with
          | (.ok text, calls) => ⟨s, .responded (.success text), calls⟩
          | (.error e, calls) => ⟨s, .responded (.error e), calls⟩
      else if a = "shutdown" then
        ⟨{ s with running := false }, .responded .shutdown, []⟩
      else
        ⟨s, .responded (.error "Unknown action"), []⟩

/-! ## The accept loop of `TranscriptionServer.start_server`

`while self.running: accept(); dispatch worker` interleaved with worker
threads that may flip `self.running` (the shutdown branch of
handle_client). Modelled as a step relation: the loop is either about to
test `self.running` (`checking`), blocked inside `accept()`
(`accepting`), or done (`exited`); `accepted` counts connections the
loop has accepted and dispatched. -/

inductive LoopPhase
  | checking
  | accepting
  | exited
deriving DecidableEq, Repr

/-- State of the accept loop plus the shared `running` flag. -/
structure LoopState where
  running : Bool
  phase : LoopPhase
  accepted : Nat
deriving DecidableEq, Repr

/-- One atomic step of the accept loop / of a worker flipping the flag.
`checkTrue`/`checkFalse` are the `while self.running` test; `acceptConn`
is a blocked `accept()` returning because a client connected (the worker
is dispatched and the loop returns to the test); `workerShutdown` is a
worker thread executing `self.running = False` in the shutdown branch. -/
inductive LoopStep : LoopState → LoopState → Prop
  | checkTrue (s : LoopState) : s.phase = .checking → s.running = true →
      LoopStep s { s with phase := .accepting }
  | checkFalse (s : LoopState) : s.phase = .checking → s.running = false →
      LoopStep s { s with phase := .exited }
  | acceptConn (s : LoopState) : s.phase = .accepting →
      LoopStep s { s with phase := .checking, accepted := s.accepted + 1 }
  | workerShutdown (s : LoopState) : LoopStep s { s with running := false }

/-- Loop state right after `start_server` sets `self.running = True` and
enters the loop. -/
def loopInit : LoopState := ⟨true, .checking, 0⟩

/-- Number of further accepts the loop can still perform once the flag is
down: one if currently blocked in `accept()`, none otherwise. -/
def loopSlack (s : LoopState) : Nat :=
  s.accepted + (if s.phase = LoopPhase.accepting then 1 else 0)

/-! ## validation.py -/

/-- `ValidationSeverity` enum. -/
inductive ValidationSeverity
  | info
  | warning
  | error
  | critical
deriving DecidableEq, Repr

/-- `ValidationResult` dataclass. The `details` kwargs dict (free-form
log metadata) is omitted; no claim concerns it. -/
structure ValidationResult where
  is_valid : Bool
  severity : ValidationSeverity
  message : String
deriving DecidableEq, Repr

/-- `ValidationResult.success` classmethod. -/
def ValidationResult.success (message : String := "Validation passed") :
    ValidationResult :=
  ⟨true, .info, message⟩

/-- `ValidationResult.warning` classmethod. -/
def ValidationResult.warning (message : String) : ValidationResult :=
  ⟨true, .warning, message⟩

/-- `ValidationResult.error` classmethod. -/
def ValidationResult.error (message : String) : ValidationResult :=
  ⟨false, .error, message⟩

/-- `ValidationResult.critical` classmethod. -/
def ValidationResult.critical (message : String) : ValidationResult :=
  ⟨false, .critical, message⟩

/-- The invariant claimed of every produced `ValidationResult`: valid
(non-blocking) exactly for severities info/warning, invalid (blocking)
exactly for error/critical. -/
def resultInvariant (r : ValidationResult) : Prop :=
  (r.is_valid = true ↔ (r.severity = .info ∨ r.severity = .warning)) ∧
  (r.is_valid = false ↔ (r.severity = .error ∨ r.severity = .critical))

instance (r : ValidationResult) : Decidable (resultInvariant r) := by
  unfold resultInvariant; infer_instance

/-- config.py `SecurityConfig` (the fields FileValidator/RequestValidator
read through `get_config().security`). -/
structure AppSecurityConfig where
  enable_input_validation : Bool
  max_request_size : Nat
  allowed_file_types : List String
deriving DecidableEq, Repr

/-- config.py defaults: 100MB, audio extensions. -/
def defaultAppSecurityConfig : AppSecurityConfig :=
  ⟨true, 104857600, ["wav", "mp3", "flac", "m4a"]⟩

/-- Filesystem oracle: the os.path / open / mimetypes observations
FileValidator makes about a path. `header` is the first 1024 bytes. -/
structure FileSystem where
  pathExists : String → Bool
  isFile : String → Bool
  readable : String → Bool
  getsize : String → Nat
  header : String → List Nat
  guessMime : String → Option String

/-- Contiguous-sublist test, Python's `needle in hay` on str/bytes. -/
def containsSeq {α : Type} [DecidableEq α] (hay needle : List α) : Bool :=
  hay.tails.any (fun t => needle.isPrefixOf t)

/-- Python `pattern in string` containment. -/
def strContains (hay needle : String) : Bool :=
  containsSeq hay.data needle.data

/-- The `suspicious_patterns` list of `FileValidator._has_path_traversal`
(the Python literal `"\\\\"` is two backslash characters). -/
def suspiciousPatterns : List String :=
  ["..", "~", "/etc/", "/var/", "/usr/", "/bin/", "/sbin/", "/home/",
   "/root/", "\\\\", "%2e%2e", "%2f", "%5c"]

/-- Python `str.lower()` on ASCII (char-wise lowering; the repository's
patterns and paths are ASCII). Implemented on the character list so it
evaluates inside the kernel. -/
def pyLower (s : String) : String :=
  String.mk (s.data.map Char.toLower)

/-- `FileValidator._has_path_traversal`. The `os.path.normpath` result is
computed but never used in the source, so it is not modelled; the check
lowercases the path and looks for each pattern as a substring. -/
def has_path_traversal (file_path : String) : Bool :=
  let file_path_lower := pyLower file_path
  suspiciousPatterns.any (fun pattern => strContains file_path_lower pattern)

/-- Split a character list on a separator (Python `str.split(sep)`). -/
def splitOnChar (sep : Char) : List Char → List (List Char)
  | [] => [[]]
  | c :: rest =>
    let r := splitOnChar sep rest
    if c = sep then [] :: r
    else
      match r with
      | [] => [[c]]
      | h :: t => (c :: h) :: t

/-- Final path component, as `pathlib.PurePosixPath(p).name`: last
nonempty `/`-separated component ("." and ".." are not special-cased;
no claim evaluates them through this function). -/
def pathName (p : String) : List Char :=
  ((splitOnChar '/' p.data).filter (fun c => c ≠ [])).getLastD []

/-- Index of the last occurrence of `c`, if any. -/
def lastIdxOf (c : Char) (l : List Char) : Option Nat :=
  l.foldl (fun (acc : Option Nat × Nat) x =>
    (if x = c then some acc.2 else acc.1, acc.2 + 1)) (none, 0) |>.1

/-- `pathlib.PurePath.suffix`: from the last dot of the name, empty when
the dot is leading, trailing, or absent. -/
def pathSuffix (p : String) : List Char :=
  let name := pathName p
  match lastIdxOf '.' name with
  | none => []
  | some i => if 0 < i ∧ i < name.length - 1 then name.drop i else []

/-- Python `str.lstrip(".")`. -/
def lstripDots (l : List Char) : List Char :=
  l.dropWhile (fun c => c = '.')

/-- `Path(file_path).suffix.lower().lstrip(".")` from FileValidator. -/
def fileExtension (file_path : String) : String :=
  String.mk (lstripDots ((pathSuffix file_path).map Char.toLower))

/-- The `expected_mimes` table of `FileValidator._validate_mime_type`. -/
def expectedMimes : List (String × List String) :=
  [("wav", ["audio/wav", "audio/x-wav", "audio/wave"]),
   ("mp3", ["audio/mpeg", "audio/mp3"]),
   ("flac", ["audio/flac", "audio/x-flac"]),
   ("m4a", ["audio/mp4", "audio/x-m4a"])]

/-- `FileValidator._validate_mime_type`. `mimetypes.guess_type` is the
`guessMime` oracle; a `None` guess is not in any expected list, hence a
mismatch warning, exactly as in Python. -/
def validate_mime_type (fs : FileSystem) (file_path extension : String) :
    ValidationResult :=
  let mime_type := fs.guessMime file_path
  match expectedMimes.lookup extension with
  | none => .success "MIME type validation passed"
  | some expected =>
    let inExpected := match mime_type with
      | some m => expected.contains m
      | none => false
    if inExpected then .success "MIME type validation passed"
    else .warning "MIME type mismatch"

/-- ASCII bytes of a literal. -/
def asciiBytes (s : String) : List Nat :=
  s.data.map (fun c => c.toNat)

/-- `executable_signatures` of `FileValidator._check_malicious_content`:
ELF, Windows PE, and the Mach-O magic variants. -/
def executableSignatures : List (List Nat) :=
  [[0x7f, 0x45, 0x4c, 0x46],
   [0x4d, 0x5a],
   [0xca, 0xfe, 0xba, 0xbe],
   [0xfe, 0xed, 0xfa, 0xce],
   [0xfe, 0xed, 0xfa, 0xcf],
   [0xce, 0xfa, 0xed, 0xfe],
   [0xcf, 0xfa, 0xed, 0xfe]]

/-- `suspicious_content` byte strings of `_check_malicious_content`. -/
def suspiciousContent : List (List Nat) :=
  [asciiBytes "<script", asciiBytes "javascript:", asciiBytes "eval(",
   asciiBytes "exec(", asciiBytes "system(", asciiBytes "shell_exec(",
   asciiBytes "passthru(", asciiBytes "file_get_contents(",
   asciiBytes "fopen(", asciiBytes "curl_exec("]

/-- `bytes.lower()` on one byte: ASCII uppercase letters shift down. -/
def byteLower (b : Nat) : Nat :=
  if 65 ≤ b ∧ b ≤ 90 then b + 32 else b

/-- `FileValidator._check_malicious_content`: magic-byte signatures on
the first kilobyte, then lowercased suspicious substrings. The
open/read is the `header` oracle, assumed to succeed (its failure path
only downgrades to a warning). -/
def check_malicious_content (fs : FileSystem) (file_path : String) :
    ValidationResult :=
  let header := fs.header file_path
  if executableSignatures.any (fun sig => sig.isPrefixOf header) then
    .critical "Executable file detected"
  else
    let header_lower := header.map byteLower
    if suspiciousContent.any (fun content => containsSeq header_lower content) then
      .critical "Suspicious content detected"
    else
      .success "Malicious content check passed"

/-- `FileValidator.validate`: the check chain in source order, each
early-returning. The surrounding try/except (returning critical) never
fires in the model because the oracles are total functions. -/
def fileValidate (cfg : AppSecurityConfig) (fs : FileSystem)
    (file_path : String) : ValidationResult :=
  if file_path = "" then .error "File path is required"
  else if has_path_traversal file_path then
    .critical "Path traversal attack detected"
  else if ¬ fs.pathExists file_path then .error "File does not exist"
  else if ¬ fs.isFile file_path then .error "Path is not a file"
  else if ¬ fs.readable file_path then .error "File is not readable"
  else if fs.getsize file_path > cfg.max_request_size then
    .error "File too large"
  else
    let extension := fileExtension file_path
    if ¬ cfg.allowed_file_types.contains extension then
      .error "File type not allowed"
    else
      let mime_result := validate_mime_type fs file_path extension
      if ¬ mime_result.is_valid then mime_result
      else
        let malware_result := check_malicious_content fs file_path
        if ¬ malware_result.is_valid then malware_result
        else .success "File validation passed"

/-! ### RequestValidator -/

/-- A Python dict value as seen by RequestValidator: the injection scans
and the action/audio_file reads only distinguish strings from everything
else. -/
inductive PyVal
  | str (s : String)
  | nonStr
deriving DecidableEq, Repr

/-- The request dict (`request_data`). -/
structure ReqData where
  fields : List (String × PyVal)
deriving DecidableEq, Repr

/-- `valid_actions` from `RequestValidator.validate`. -/
def validActions : List String := ["transcribe", "shutdown", "health_check"]

/-- The `sql_patterns` regex literals of `_check_sql_injection`. -/
def sqlPatterns : List String :=
  ["(\\bunion\\b.*\\bselect\\b)", "(\\bselect\\b.*\\bfrom\\b)",
   "(\\binsert\\b.*\\binto\\b)", "(\\bupdate\\b.*\\bset\\b)",
   "(\\bdelete\\b.*\\bfrom\\b)", "(\\bdrop\\b.*\\btable\\b)",
   "(\\bor\\b.*\\b=\\b.*\\bor\\b)", "(\\band\\b.*\\b=\\b.*\\band\\b)",
   "(--\\s*)", "(;\\s*--)", "(\\bexec\\b.*\\()", "(\\bsp_\\w+)"]

/-- The `xss_patterns` regex literals of `_check_xss`. -/
def xssPatterns : List String :=
  ["<script[^>]*>.*?</script>", "javascript:", "vbscript:",
   "onload\\s*=", "onclick\\s*=", "onmouseover\\s*=", "onfocus\\s*=",
   "onblur\\s*=", "onchange\\s*=", "onsubmit\\s*=", "<iframe[^>]*>",
   "<object[^>]*>", "<embed[^>]*>", "<link[^>]*>", "<meta[^>]*>",
   "eval\\s*\\(", "document\\.cookie", "document\\.write",
   "window\\.location"]

/-- `RequestValidator._check_sql_injection`; `reSearch pat txt` is the
oracle for `re.search(pat, txt, re.IGNORECASE) is not None`. Values are
lowercased before the scan, as in the source. -/
def check_sql_injection (reSearch : String → String → Bool)
    (data : ReqData) : ValidationResult :=
  if data.fields.any (fun kv =>
      match kv.2 with
      | .str value => sqlPatterns.any (fun pattern => reSearch pattern (pyLower value))
      | .nonStr => false) then
    .critical "SQL injection pattern detected"
  else
    .success "SQL injection check passed"

/-- `RequestValidator._check_xss` (values scanned unlowered, IGNORECASE
regex oracle). -/
def check_xss (reSearch : String → String → Bool) (data : ReqData) :
    ValidationResult :=
  if data.fields.any (fun kv =>
      match kv.2 with
      | .str value => xssPatterns.any (fun pattern => reSearch pattern value)
      | .nonStr => false) then
    .critical "XSS pattern detected"
  else
    .success "XSS check passed"

/-- The tail of `RequestValidator.validate` after the per-action block:
SQL scan, XSS scan, then the `json.dumps` size ceiling (`jsonSize` is
the oracle for `len(json.dumps(request_data).encode("utf-8"))`). -/
def requestValidateRest (reSearch : String → String → Bool)
    (jsonSize : ReqData → Nat) (cfg : AppSecurityConfig) (data : ReqData) :
    ValidationResult :=
  let sql_result := check_sql_injection reSearch data
  if ¬ sql_result.is_valid then sql_result
  else
    let xss_result := check_xss reSearch data
    if ¬ xss_result.is_valid then xss_result
    else if jsonSize data > cfg.max_request_size then
      .error "Request too large"
    else
      .success "Request validation passed"

/-- `RequestValidator.validate`. An empty dict is falsy (`if not
request_data`); the `isinstance(dict)` branch cannot fire in the model.
A non-string `audio_file` makes the nested `FileValidator.validate`
raise internally (TypeError on str methods), which its own try/except
turns into a critical result; the exception text is abstracted. -/
def requestValidate (reSearch : String → String → Bool)
    (jsonSize : ReqData → Nat) (cfg : AppSecurityConfig) (fs : FileSystem)
    (data : ReqData) : ValidationResult :=
  if data.fields.isEmpty then .error "Request data is required"
  else
    match data.fields.lookup "action" with
    | none => .error "Required field \x27action\x27 is missing"
    | some action =>
      let actionOk := match action with
        | .str a => validActions.contains a
        | .nonStr => false
      if actionOk = false then .error "Invalid action"
      else if action = .str "transcribe" then
        match data.fields.lookup "audio_file" with
        | none => .error "audio_file is required for transcribe action"
        | some af =>
          let file_result := match af with
            | .str f => fileValidate cfg fs f
            | .nonStr => .critical "File validation failed: exception"
          if ¬ file_result.is_valid then file_result
          else requestValidateRest reSearch jsonSize cfg data
      else requestValidateRest reSearch jsonSize cfg data

/-! ## security.py

Python strings here are `List Char` so that byte-level token alteration
can be reasoned about directly. -/

/-- Python `str` in the security module. -/
abbrev Str := List Char

/-- String-literal to `Str` coercion helper. -/
def sL (s : String) : Str := s.data

/-- security.py `SecurityConfig` dataclass (the `security_level` field is
never read by the modelled logic and is omitted). -/
structure SecConfig where
  enable_encryption : Bool
  enable_authentication : Bool
  enable_rate_limiting : Bool
  max_requests_per_minute : Nat
  session_timeout : Int
  token_expiry : Int
deriving DecidableEq, Repr

/-- security.py `SecurityConfig()` defaults. -/
def defaultSecConfig : SecConfig := ⟨false, true, true, 60, 300, 3600⟩

/-! ### RateLimiter -/

/-- `RateLimiter` state: bounds plus the client-id → timestamp-list
dict. -/
structure RateLimiter where
  max_requests : Nat
  window_seconds : Int
  requests : List (Str × List Int)

/-- Dict read with the missing-key initialisation `is_allowed` performs
(`self.requests[client_id] = []` when absent). -/
def RateLimiter.get (rl : RateLimiter) (client_id : Str) : List Int :=
  (rl.requests.lookup client_id).getD []

/-- Dict assignment `self.requests[client_id] = l`. -/
def RateLimiter.set (rl : RateLimiter) (client_id : Str) (l : List Int) :
    RateLimiter :=
  { rl with requests :=
      (client_id, l) :: rl.requests.filter (fun kv => kv.1 ≠ client_id) }

/-- `RateLimiter.is_allowed`: prune timestamps outside the sliding
window, reject when the pruned count already reaches `max_requests`,
otherwise record `now` and allow. -/
def RateLimiter.is_allowed (rl : RateLimiter) (client_id : Str)
    (now : Int) : Bool × RateLimiter :=
  let pruned := (rl.get client_id).filter
      (fun req_time => now - req_time < rl.window_seconds)
  if rl.max_requests ≤ pruned.length then
    (false, rl.set client_id pruned)
  else
    (true, rl.set client_id (pruned ++ [now]))

/-! ### TokenManager -/

/-- The token payload dict built by `generate_token`. -/
structure TokenPayload where
  client_id : Str
  created_at : Int
  expires_at : Int
  nonce : Str
deriving DecidableEq, Repr

/-- External crypto/encoding libraries used by TokenManager:
`payloadEncode` is `base64.b64encode(json.dumps(payload,
sort_keys=True))`; `payloadDecode` is the inverse read performed by
`validate_token` (`none` = the decode raised); `hmacHex secret msg` is
`hmac.new(secret, msg, hashlib.sha256).hexdigest()`. -/
structure CryptoPrims where
  payloadEncode : TokenPayload → Str
  payloadDecode : Str → Option TokenPayload
  hmacHex : Str → Str → Str

/-- The per-token record stored in `self.tokens`. -/
structure StoredTok where
  client_id : Str
  created_at : Int
  expires_at : Int
deriving DecidableEq, Repr

/-- `TokenManager` state: secret key plus the token store dict. -/
structure TokenManager where
  secret_key : Str
  tokens : List (Str × StoredTok)

/-- `token.rsplit(".", 1)` guarded by `if "." not in token`: `none` when
the token has no dot, otherwise the parts around the last dot. -/
def splitLastDot : List Char → Option (List Char × List Char)
  | [] => none
  | c :: rest =>
    match splitLastDot rest with
    | some (a, b) => some (c :: a, b)
    | none => if c = '.' then some ([], rest) else none

/-- `TokenManager.generate_token`: build the payload (expiry defaulting
to 3600 s past `now`), encode, sign, join with a dot, store. The nonce
is `secrets.token_urlsafe(16)`, passed in as an oracle value. -/
def generate_token (prims : CryptoPrims) (tm : TokenManager)
    (client_id : Str) (now expiry_seconds : Int) (nonce : Str) :
    TokenManager × Str :=
  let payload : TokenPayload := ⟨client_id, now, now + expiry_seconds, nonce⟩
  let payload_encoded := prims.payloadEncode payload
  let signature := prims.hmacHex tm.secret_key payload_encoded
  let token := payload_encoded ++ '.' :: signature
  ({ tm with tokens :=
      (token, ⟨client_id, now, now + expiry_seconds⟩) :: tm.tokens },
   token)

/-- `TokenManager._cleanup_token`. -/
def cleanup_token (tm : TokenManager) (token : Str) : TokenManager :=
  { tm with tokens := tm.tokens.filter (fun kv => kv.1 ≠ token) }

/-- `TokenManager.validate_token`: format check, HMAC comparison
(`hmac.compare_digest` is string equality), payload decode (a decode
exception returns the validation-error message, abstracted), expiry
check by payload timestamp (which also deletes the token from the
store), then store membership, then success carrying the client id. -/
def validate_token (prims : CryptoPrims) (tm : TokenManager) (token : Str)
    (now : Int) : TokenManager × Bool × Str :=
  match splitLastDot token with
  | none => (tm, false, sL "Invalid token format")
  | some (payload_encoded, signature) =>
    let expected_signature := prims.hmacHex tm.secret_key payload_encoded
    if signature ≠ expected_signature then
      (tm, false, sL "Invalid token signature")
    else
      match prims.payloadDecode payload_encoded with
      | none => (tm, false, sL "Token validation error")
      | some payload =>
        if now > payload.expires_at then
          (cleanup_token tm token, false, sL "Token expired")
        else if (tm.tokens.lookup token).isNone then
          (tm, false, sL "Token not found")
        else
          (tm, true, payload.client_id)

/-- `TokenManager.revoke_token`. -/
def revoke_token (tm : TokenManager) (token : Str) : TokenManager × Bool :=
  if (tm.tokens.lookup token).isSome then
    (cleanup_token tm token, true)
  else
    (tm, false)

/-! ### SecurityManager -/

/-- `self.security_stats`. -/
structure SecurityStats where
  total_requests : Nat
  blocked_requests : Nat
  authentication_failures : Nat
  rate_limit_violations : Nat
deriving DecidableEq, Repr

/-- `SecurityManager` state (encryption and socket helpers carry no
modelled state). -/
structure SecurityManager where
  config : SecConfig
  rate_limiter : RateLimiter
  token_manager : TokenManager
  security_stats : SecurityStats

/-- `SecurityManager.authenticate_client`: allow when authentication is
disabled; issue a fresh token when none is presented (default 3600 s
expiry of `generate_token`); otherwise validate, counting failures, and
apply the `result or "Unknown error"` fallback for falsy results. -/
def authenticate_client (prims : CryptoPrims) (sm : SecurityManager)
    (client_id : Str) (token : Option Str) (now : Int) (nonce : Str) :
    SecurityManager × Bool × Str :=
  if ¬ sm.config.enable_authentication then
    (sm, true, sL "Authentication disabled")
  else
    match token with
    | none =>
      let res := generate_token prims sm.token_manager client_id now 3600 nonce
      ({ sm with token_manager := res.1 }, true, res.2)
    | some tok =>
      let res := validate_token prims sm.token_manager tok now
      let sm1 := { sm with token_manager := res.1 }
      let sm2 :=
        if res.2.1 = false then
          { sm1 with security_stats :=
              { sm1.security_stats with authentication_failures :=
                  sm1.security_stats.authentication_failures + 1 } }
        else sm1
      (sm2, res.2.1, if res.2.2 = [] then sL "Unknown error" else res.2.2)

/-- `SecurityManager.check_rate_limit`. -/
def check_rate_limit (sm : SecurityManager) (client_id : Str) (now : Int) :
    Bool × SecurityManager :=
  if ¬ sm.config.enable_rate_limiting then (true, sm)
  else
    let res := sm.rate_limiter.is_allowed client_id now
    let sm1 := { sm with rate_limiter := res.2 }
    if res.1 = false then
      (false, { sm1 with security_stats :=
          { sm1.security_stats with
              rate_limit_violations :=
                sm1.security_stats.rate_limit_violations + 1,
              blocked_requests :=
                sm1.security_stats.blocked_requests + 1 } })
    else (true, sm1)

/-- `SecurityManager.process_request` (the `request_data` argument is
never read by the source logic and is omitted): count the request, rate
limit first, then authenticate; when a fresh token was issued, return it
in the response data. -/
def process_request (prims : CryptoPrims) (sm : SecurityManager)
    (client_id : Str) (token : Option Str) (now : Int) (nonce : Str) :
    SecurityManager × Bool × Str × Option Str :=
  let sm0 := { sm with security_stats :=
      { sm.security_stats with total_requests :=
          sm.security_stats.total_requests + 1 } }
  let rate := check_rate_limit sm0 client_id now
  if rate.1 = false then
    (rate.2, false, sL "Rate limit exceeded", none)
  else
    let auth := authenticate_client prims rate.2 client_id token now nonce
    if auth.2.1 = false then
      (auth.1, false, sL "Authentication failed: " ++ auth.2.2, none)
    else
      let response_token :=
        if token.isNone ∧ auth.1.config.enable_authentication then
          some auth.2.2
        else none
      (auth.1, true, sL "Request authorized", response_token)

/-! ## Concrete oracles used by closed theorems and witnesses -/

/-- A model stub whose transcribe succeeds on every path. -/
def alwaysOkModel : NemoModel := fun _ => .ok "transcribed text"

/-- A filesystem oracle on which no path exists. -/
def emptyFS : FileSystem :=
  ⟨fun _ => false, fun _ => false, fun _ => false, fun _ => 0,
   fun _ => [], fun _ => none⟩

/-! ## Claim theorems -/

/-- C1: the claim fails on the code. A transcribe request whose path
fails the validator (here `"../../etc/passwd"`, rejected as a critical
path-traversal by `FileValidator.validate`) is still passed straight to
the model by `handle_client` — the server never consults any validator —
and with a ready model the response is `success`, not `error`, and the
model's transcribe IS invoked on that path. -/
theorem c1_server_bypasses_validator :
    has_path_traversal "../../etc/passwd" = true ∧
    (fileValidate defaultAppSecurityConfig emptyFS "../../etc/passwd").is_valid
      = false ∧
    (fileValidate defaultAppSecurityConfig emptyFS "../../etc/passwd").severity
      = .critical ∧
    (handle_client ⟨some alwaysOkModel, true⟩
        (some ⟨some "transcribe", some "../../etc/passwd"⟩)).outcome =
      .responded (.success "transcribed text") ∧
    (handle_client ⟨some alwaysOkModel, true⟩
        (some ⟨some "transcribe", some "../../etc/passwd"⟩)).modelCalls =
      ["../../etc/passwd"] := by
  refine ⟨by decide, by decide, by decide, rfl, rfl⟩

/-- C2: the claim fails on the code. `RequestValidator.validate` does list
`health_check` among its valid actions, but `handle_client` has no
`health_check` branch: the request falls through to the answer
`{"status": "error", "error": "Unknown action"}` instead of a non-error
liveness response. -/
theorem c2_health_check_is_unknown_to_router :
    validActions.contains "health_check" = true ∧
    (handle_client ⟨none, true⟩ (some ⟨some "health_check", none⟩)).outcome =
      .responded (.error "Unknown action") := by
  exact ⟨by decide, rfl⟩

/-- C3, counterexample: a well-formed transcribe request that merely
omits `audio_file` does NOT receive a structured error response —
`request["audio_file"]` raises KeyError, the outer except swallows it,
and the connection closes with nothing written back. -/
theorem c3_missing_audio_file_closes_silently :
    (handle_client ⟨none, true⟩ (some ⟨some "transcribe", none⟩)).outcome =
      .closedNoResponse := rfl

/-- C3, amended: unparseable bodies, requests missing `action`, and
transcribe requests missing `audio_file` all close the connection with
no response (one catch-all swallows the parse error and both KeyErrors);
model-not-ready, inference failure and unknown action do yield
structured `status = error` responses before closing. -/
theorem c3_amended_connection_outcomes (s : Server) (af : Option String)
    (f e : String) (a : String) (m : NemoModel) :
    handle_client s none = ⟨s, .closedNoResponse, []⟩ ∧
    handle_client s (some ⟨none, af⟩) = ⟨s, .closedNoResponse, []⟩ ∧
    handle_client s (some ⟨some "transcribe", none⟩) =
      ⟨s, .closedNoResponse, []⟩ ∧
    (s.model = none →
      handle_client s (some ⟨some "transcribe", some f⟩) =
        ⟨s, .responded (.error "Model not loaded"), []⟩) ∧
    (s.model = some m → m f = .error e →
      handle_client s (some ⟨some "transcribe", some f⟩) =
        ⟨s, .responded (.error e), [f]⟩) ∧
    (a ≠ "transcribe" → a ≠ "shutdown" →
      handle_client s (some ⟨some a, af⟩) =
        ⟨s, .responded (.error "Unknown action"), []⟩) := by
  refine ⟨rfl, rfl, rfl, ?_, ?_, ?_⟩
  · intro h
    simp [handle_client, transcribe_audio, h]
  · intro h hf
    simp [handle_client, transcribe_audio, h, hf]
  · intro h1 h2
    simp [handle_client, h1, h2]

/-- C3 witness: the amended theorem applied at concrete inputs. -/
theorem c3_amended_connection_outcomes_witness :
    handle_client ⟨none, true⟩ (some ⟨some "transcribe", some "a.wav"⟩) =
      ⟨⟨none, true⟩, .responded (.error "Model not loaded"), []⟩ ∧
    handle_client ⟨none, true⟩ (some ⟨some "ping", none⟩) =
      ⟨⟨none, true⟩, .responded (.error "Unknown action"), []⟩ := by
  have h := c3_amended_connection_outcomes ⟨none, true⟩ none "a.wav" "x" "ping"
      alwaysOkModel
  exact ⟨h.2.2.2.1 rfl, h.2.2.2.2.2 (by decide) (by decide)⟩

/-- C9: a transcription failure never mutates the server state. With no
model loaded, transcribe answers `error "Model not loaded"`; with a
ready model whose inference raises, it answers `error e`; in every case
(including success) the returned server state is exactly the input
state, so the stored model handle is untouched and later requests see
the same ready model. -/
theorem c9_transcribe_failure_preserves_model (s : Server) (f e t : String)
    (m : NemoModel) :
    (s.model = none →
      handle_client s (some ⟨some "transcribe", some f⟩) =
        ⟨s, .responded (.error "Model not loaded"), []⟩) ∧
    (s.model = some m → m f = .error e →
      handle_client s (some ⟨some "transcribe", some f⟩) =
        ⟨s, .responded (.error e), [f]⟩) ∧
    (s.model = some m → m f = .ok t →
      handle_client s (some ⟨some "transcribe", some f⟩) =
        ⟨s, .responded (.success t), [f]⟩) := by
  refine ⟨?_, ?_, ?_⟩
  · intro h
    simp [handle_client, transcribe_audio, h]
  · intro h hf
    simp [handle_client, transcribe_audio, h, hf]
  · intro h hf
    simp [handle_client, transcribe_audio, h, hf]

/-- C9 witness: both failure modes at concrete inputs. -/
theorem c9_transcribe_failure_preserves_model_witness :
    handle_client ⟨none, true⟩ (some ⟨some "transcribe", some "clip.wav"⟩) =
      ⟨⟨none, true⟩, .responded (.error "Model not loaded"), []⟩ ∧
    handle_client ⟨some (fun _ => .error "CUDA out of memory"), true⟩
        (some ⟨some "transcribe", some "clip.wav"⟩) =
      ⟨⟨some (fun _ => .error "CUDA out of memory"), true⟩,
        .responded (.error "CUDA out of memory"), ["clip.wav"]⟩ := by
  refine ⟨(c9_transcribe_failure_preserves_model ⟨none, true⟩ "clip.wav" "x" "t"
      alwaysOkModel).1 rfl, ?_⟩
  exact (c9_transcribe_failure_preserves_model
      ⟨some (fun _ => .error "CUDA out of memory"), true⟩ "clip.wav"
      "CUDA out of memory" "t" (fun _ => .error "CUDA out of memory")).2.1 rfl rfl

/-- One loop/worker step taken from a state with the flag already down
keeps the flag down and does not increase `loopSlack`. -/
theorem loopStep_slack (s s' : LoopState) (h : s.running = false)
    (hs : LoopStep s s') : s'.running = false ∧ loopSlack s' ≤ loopSlack s := by
  cases hs with
  | checkTrue hp hr => rw [h] at hr; cases hr
  | checkFalse hp hr =>
    refine ⟨h, ?_⟩
    unfold loopSlack
    simp [hp]
  | acceptConn hp =>
    refine ⟨h, ?_⟩
    unfold loopSlack
    simp [hp]
  | workerShutdown =>
    refine ⟨rfl, ?_⟩
    unfold loopSlack
    simp

/-- Once the flag is down it stays down, and the loop performs at most
`loopSlack` further accepts in total (at most one, namely an `accept()`
already in flight). -/
theorem loopSteps_bound (s s' : LoopState) (h : s.running = false)
    (hs : Relation.ReflTransGen LoopStep s s') :
    s'.running = false ∧ loopSlack s' ≤ loopSlack s := by
  induction hs with
  | refl => exact ⟨h, le_refl _⟩
  | tail _ hbc ih =>
    obtain ⟨hb, hle⟩ := ih
    obtain ⟨hc, hle'⟩ := loopStep_slack _ _ hb hbc
    exact ⟨hc, le_trans hle' hle⟩

/-- C4, counterexample: it is NOT true that once `running` is false the
accept loop accepts no further connection. A reachable state exists in
which the loop is blocked in `accept()` with the flag already flipped by
the shutdown worker, and the next step accepts (and dispatches) one more
connection. -/
theorem c4_accept_after_shutdown_counterexample :
    ¬ (∀ s s' : LoopState, Relation.ReflTransGen LoopStep loopInit s →
        s.running = false → LoopStep s s' → s'.accepted = s.accepted) := by
  intro h
  have h1 : LoopStep loopInit ⟨true, .accepting, 0⟩ :=
    LoopStep.checkTrue loopInit rfl rfl
  have h2 : LoopStep ⟨true, .accepting, 0⟩ ⟨false, .accepting, 0⟩ :=
    LoopStep.workerShutdown _
  have hreach : Relation.ReflTransGen LoopStep loopInit ⟨false, .accepting, 0⟩ :=
    Relation.ReflTransGen.head h1 (Relation.ReflTransGen.single h2)
  have hstep : LoopStep ⟨false, .accepting, 0⟩ ⟨false, .checking, 1⟩ :=
    LoopStep.acceptConn _ rfl
  have hcontra := h _ _ hreach rfl hstep
  simp at hcontra

/-- C4, amended: a shutdown request answers `{"status": "shutdown"}` and
flips `running` to false; after the flip the flag never rises again and
the loop accepts at most one more connection — the one a blocked
`accept()` call may still return — before it observes the flag and
exits. -/
theorem c4_amended_shutdown_drains (s : Server) (af : Option String)
    (ls ls' : LoopState) :
    handle_client s (some ⟨some "shutdown", af⟩) =
      ⟨{ s with running := false }, .responded .shutdown, []⟩ ∧
    (ls.running = false → Relation.ReflTransGen LoopStep ls ls' →
      ls'.running = false ∧ ls'.accepted ≤ loopSlack ls) := by
  constructor
  · rfl
  · intro h hs
    obtain ⟨hr, hle⟩ := loopSteps_bound ls ls' h hs
    refine ⟨hr, le_trans ?_ hle⟩
    unfold loopSlack
    exact Nat.le_add_right _ _

/-- C4 witness: the amended theorem at a concrete server and a concrete
one-accept trace. -/
theorem c4_amended_shutdown_drains_witness :
    handle_client ⟨none, true⟩ (some ⟨some "shutdown", none⟩) =
      ⟨⟨none, false⟩, .responded .shutdown, []⟩ ∧
    (⟨false, .checking, 2⟩ : LoopState).running = false ∧
    (⟨false, .checking, 2⟩ : LoopState).accepted ≤
      loopSlack ⟨false, .accepting, 1⟩ := by
  have h := c4_amended_shutdown_drains ⟨none, true⟩ none
      ⟨false, .accepting, 1⟩ ⟨false, .checking, 2⟩
  have h2 := h.2 rfl
      (Relation.ReflTransGen.single (LoopStep.acceptConn _ rfl))
  exact ⟨h.1, h2.1, h2.2⟩

/-! ### ValidationResult invariant lemmas -/

theorem resultInvariant_success (msg : String) :
    resultInvariant (ValidationResult.success msg) := by
  simp [resultInvariant, ValidationResult.success]

theorem resultInvariant_warning (msg : String) :
    resultInvariant (ValidationResult.warning msg) := by
  simp [resultInvariant, ValidationResult.warning]

theorem resultInvariant_error (msg : String) :
    resultInvariant (ValidationResult.error msg) := by
  simp [resultInvariant, ValidationResult.error]

theorem resultInvariant_critical (msg : String) :
    resultInvariant (ValidationResult.critical msg) := by
  simp [resultInvariant, ValidationResult.critical]

theorem resultInvariant_mime (fs : FileSystem) (p ext : String) :
    resultInvariant (validate_mime_type fs p ext) := by
  unfold validate_mime_type
  dsimp only
  repeat' split
  all_goals first
    | exact resultInvariant_success _
    | exact resultInvariant_warning _

theorem resultInvariant_malicious (fs : FileSystem) (p : String) :
    resultInvariant (check_malicious_content fs p) := by
  unfold check_malicious_content
  dsimp only
  repeat' split
  all_goals first
    | exact resultInvariant_critical _
    | exact resultInvariant_success _

theorem resultInvariant_file (cfg : AppSecurityConfig) (fs : FileSystem)
    (p : String) : resultInvariant (fileValidate cfg fs p) := by
  unfold fileValidate
  dsimp only
  repeat' split
  all_goals first
    | exact resultInvariant_error _
    | exact resultInvariant_critical _
    | exact resultInvariant_success _
    | exact resultInvariant_mime _ _ _
    | exact resultInvariant_malicious _ _

theorem resultInvariant_sql (re : String → String → Bool) (d : ReqData) :
    resultInvariant (check_sql_injection re d) := by
  unfold check_sql_injection
  split
  · exact resultInvariant_critical _
  · exact resultInvariant_success _

theorem resultInvariant_xss (re : String → String → Bool) (d : ReqData) :
    resultInvariant (check_xss re d) := by
  unfold check_xss
  split
  · exact resultInvariant_critical _
  · exact resultInvariant_success _

theorem resultInvariant_requestRest (re : String → String → Bool)
    (js : ReqData → Nat) (cfg : AppSecurityConfig) (d : ReqData) :
    resultInvariant (requestValidateRest re js cfg d) := by
  unfold requestValidateRest
  dsimp only
  repeat' split
  all_goals first
    | exact resultInvariant_error _
    | exact resultInvariant_success _
    | exact resultInvariant_sql _ _
    | exact resultInvariant_xss _ _

theorem resultInvariant_request (re : String → String → Bool)
    (js : ReqData → Nat) (cfg : AppSecurityConfig) (fs : FileSystem)
    (d : ReqData) : resultInvariant (requestValidate re js cfg fs d) := by
  unfold requestValidate
  dsimp only
  repeat' split
  all_goals first
    | exact resultInvariant_error _
    | exact resultInvariant_critical _
    | exact resultInvariant_file _ _ _
    | exact resultInvariant_requestRest _ _ _ _

/-- C7: every `ValidationResult` the validators produce is valid exactly
when its severity is info or warning and invalid exactly when it is
error or critical — the four smart constructors establish it and the
full file- and request-validation chains preserve it; moreover a MIME
mismatch yields precisely the non-blocking warning result. -/
theorem c7_validation_result_invariant :
    (∀ msg : String,
      resultInvariant (ValidationResult.success msg) ∧
      resultInvariant (ValidationResult.warning msg) ∧
      resultInvariant (ValidationResult.error msg) ∧
      resultInvariant (ValidationResult.critical msg)) ∧
    (∀ (cfg : AppSecurityConfig) (fs : FileSystem) (p : String),
      resultInvariant (fileValidate cfg fs p)) ∧
    (∀ (re : String → String → Bool) (js : ReqData → Nat)
        (cfg : AppSecurityConfig) (fs : FileSystem) (d : ReqData),
      resultInvariant (requestValidate re js cfg fs d)) ∧
    (∀ (fs : FileSystem) (p ext : String) (expected : List String),
      expectedMimes.lookup ext = some expected →
      (match fs.guessMime p with
       | some m => expected.contains m
       | none => false) = false →
      validate_mime_type fs p ext = .warning "MIME type mismatch") := by
  refine ⟨fun msg => ⟨resultInvariant_success msg, resultInvariant_warning msg,
      resultInvariant_error msg, resultInvariant_critical msg⟩,
    resultInvariant_file, resultInvariant_request, ?_⟩
  intro fs p ext expected hlook hmiss
  unfold validate_mime_type
  rw [hlook]
  simp only [hmiss]
  rfl

/-- C7 witness: the invariant and the MIME-mismatch warning at concrete
inputs. -/
theorem c7_validation_result_invariant_witness :
    resultInvariant (fileValidate defaultAppSecurityConfig emptyFS "x.wav") ∧
    validate_mime_type emptyFS "x.wav" "wav" = .warning "MIME type mismatch" := by
  refine ⟨c7_validation_result_invariant.2.1 defaultAppSecurityConfig emptyFS
      "x.wav", ?_⟩
  exact c7_validation_result_invariant.2.2.2 emptyFS "x.wav" "wav"
      ["audio/wav", "audio/x-wav", "audio/wave"] (by decide) (by decide)

/-! ### C8 helper lemmas -/

theorem containsSeq_iff {α : Type} [DecidableEq α] (hay needle : List α) :
    containsSeq hay needle = true ↔ needle <:+: hay := by
  unfold containsSeq
  rw [List.any_eq_true]
  constructor
  · rintro ⟨t, ht, hpre⟩
    rw [List.mem_tails] at ht
    rw [ List.isPrefixOf_iff_prefix] at hpre
    exact List.infix_iff_prefix_suffix.mpr ⟨t, hpre, ht⟩
  · intro h
    obtain ⟨t, hpre, hsuf⟩ := List.infix_iff_prefix_suffix.mp h
    exact ⟨t, (List.mem_tails _ _).mpr hsuf, ( List.isPrefixOf_iff_prefix).mpr hpre⟩

/-- C8: the file checks short-circuit in source order. A path containing
`..` trips the traversal check; a tripped traversal check yields the
blocking critical result for EVERY filesystem oracle (so no filesystem
read of the path can occur); and each later stage (existence, size
ceiling, extension allow-list, content scan) is reached only when every
earlier stage passed. -/
theorem c8_file_check_order (p : String) (cfg : AppSecurityConfig)
    (fs fs2 : FileSystem) :
    (strContains p ".." = true → has_path_traversal p = true) ∧
    (has_path_traversal p = true →
      fileValidate cfg fs p = .critical "Path traversal attack detected") ∧
    (has_path_traversal p = true →
      fileValidate cfg fs p = fileValidate cfg fs2 p) ∧
    (has_path_traversal p = false → p ≠ "" → fs.pathExists p = false →
      fileValidate cfg fs p = .error "File does not exist") ∧
    (has_path_traversal p = false → p ≠ "" → fs.pathExists p = true →
      fs.isFile p = true → fs.readable p = true →
      fs.getsize p > cfg.max_request_size →
      fileValidate cfg fs p = .error "File too large") ∧
    (has_path_traversal p = false → p ≠ "" → fs.pathExists p = true →
      fs.isFile p = true → fs.readable p = true →
      ¬ fs.getsize p > cfg.max_request_size →
      cfg.allowed_file_types.contains (fileExtension p) = false →
      fileValidate cfg fs p = .error "File type not allowed") ∧
    (has_path_traversal p = false → p ≠ "" → fs.pathExists p = true →
      fs.isFile p = true → fs.readable p = true →
      ¬ fs.getsize p > cfg.max_request_size →
      cfg.allowed_file_types.contains (fileExtension p) = true →
      (validate_mime_type fs p (fileExtension p)).is_valid = true →
      List.isPrefixOf [0x7f, 0x45, 0x4c, 0x46] (fs.header p) = true →
      fileValidate cfg fs p = .critical "Executable file detected") := by
  have htrav : ∀ (fsx : FileSystem), has_path_traversal p = true →
      fileValidate cfg fsx p = .critical "Path traversal attack detected" := by
    intro fsx h
    have hp : p ≠ "" := by
      intro he
      rw [he] at h
      exact absurd h (by decide)
    unfold fileValidate
    rw [if_neg hp, if_pos h]
  refine ⟨?_, htrav fs, ?_, ?_, ?_, ?_, ?_⟩
  · intro h
    have hinf : ("..".data) <:+: p.data := (containsSeq_iff _ _).mp h
    have hinf2 : ("..".data.map Char.toLower) <:+: (p.data.map Char.toLower) :=
      List.IsInfix.map _ hinf
    unfold has_path_traversal
    dsimp only
    rw [List.any_eq_true]
    refine ⟨"..", by simp [suspiciousPatterns], ?_⟩
    unfold strContains pyLower
    rw [containsSeq_iff]
    exact hinf2
  · intro h
    rw [htrav fs h, htrav fs2 h]
  · intro h1 hp he
    simp [fileValidate, hp, h1, he]
  · intro h1 hp he hf hr hsz
    simp [fileValidate, hp, h1, he, hf, hr, hsz]
  · intro h1 hp he hf hr hsz hext
    have hext' : fileExtension p ∉ cfg.allowed_file_types := by
      simpa using hext
    simp [fileValidate, hp, h1, he, hf, hr, hsz, hext']
  · intro h1 hp he hf hr hsz hext hmime hsig
    have hmal : check_malicious_content fs p =
        .critical "Executable file detected" := by
      unfold check_malicious_content
      dsimp only
      rw [if_pos]
      exact List.any_eq_true.mpr
        ⟨[0x7f, 0x45, 0x4c, 0x46], by simp [executableSignatures], hsig⟩
    have hext' : fileExtension p ∈ cfg.allowed_file_types := by
      simpa using hext
    simp [fileValidate, hp, h1, he, hf, hr, hsz, hext', hmime, hmal,
      ValidationResult.critical]

/-- C8 witness: traversal rejection and the existence stage at concrete
inputs, on a filesystem oracle with no entries. -/
theorem c8_file_check_order_witness :
    fileValidate defaultAppSecurityConfig emptyFS "../../etc/passwd" =
      .critical "Path traversal attack detected" ∧
    fileValidate defaultAppSecurityConfig emptyFS "clip.wav" =
      .error "File does not exist" := by
  refine ⟨(c8_file_check_order "../../etc/passwd" defaultAppSecurityConfig
      emptyFS emptyFS).2.1 (by decide), ?_⟩
  exact (c8_file_check_order "clip.wav" defaultAppSecurityConfig emptyFS
      emptyFS).2.2.2.1 (by decide) (by decide) rfl

/-! ### Concrete security fixtures for witnesses -/

/-- A rate limiter allowing 2 requests per 60 s, with client "c" already
holding timestamps 0 and 10. -/
def wRL : RateLimiter := ⟨2, 60, [(sL "c", [0, 10])]⟩

/-- A token manager with a fixed secret and empty store. -/
def wTM : TokenManager := ⟨sL "k", []⟩

/-- A security manager over the default configuration. -/
def wSM : SecurityManager := ⟨defaultSecConfig, wRL, wTM, ⟨0, 0, 0, 0⟩⟩

/-- A concrete token payload for witnesses. -/
def wPayload : TokenPayload := ⟨sL "c", 0, 3600, sL "n"⟩

/-- A concrete encoded payload (one dot-free character). -/
def wEnc : Str := sL "p"

/-- Concrete crypto oracles: the encoder maps every payload to `wEnc`,
the decoder inverts it on `wEnc` only, and the MAC has 64-character
output with no collision against `wEnc`. -/
def wPrims : CryptoPrims :=
  ⟨fun _ => wEnc,
   fun l => if l = wEnc then some wPayload else none,
   fun _ m => if m = wEnc then List.replicate 64 'a'
              else List.replicate 64 'b'⟩

/-- C6: the rate limit is a pre-authentication sliding window. The
decision equals "fewer than `max_requests` timestamps survive pruning to
the window"; a client whose stored timestamps all lie inside the window
and number `max_requests` is rejected; one window-interval after the
earliest stored timestamp the client is allowed again (the window
rolls); and a rate-limited `process_request` returns before
authentication, leaving the token store and the authentication-failure
counter untouched. -/
theorem c6_rate_limit_sliding_window (rl : RateLimiter) (client : Str)
    (now m : Int) (prims : CryptoPrims) (sm : SecurityManager)
    (tok : Option Str) (nonce : Str) :
    ((rl.is_allowed client now).1 =
      decide ((((rl.get client).filter
          (fun t => now - t < rl.window_seconds)).length) < rl.max_requests)) ∧
    ((rl.get client).length = rl.max_requests →
      (∀ t ∈ rl.get client, now - t < rl.window_seconds) →
      (rl.is_allowed client now).1 = false) ∧
    (m ∈ rl.get client → (∀ x ∈ rl.get client, m ≤ x) →
      (rl.get client).length = rl.max_requests →
      (rl.is_allowed client (m + rl.window_seconds)).1 = true) ∧
    (sm.config.enable_rate_limiting = true →
      (sm.rate_limiter.is_allowed client now).1 = false →
      (process_request prims sm client tok now nonce).2.1 = false ∧
      (process_request prims sm client tok now nonce).2.2.1 =
        sL "Rate limit exceeded" ∧
      (process_request prims sm client tok now nonce).1.token_manager =
        sm.token_manager ∧
      (process_request prims sm client tok now
          nonce).1.security_stats.authentication_failures =
        sm.security_stats.authentication_failures) := by
  have ha : ∀ (n : Int), (rl.is_allowed client n).1 =
      decide ((((rl.get client).filter
          (fun t => n - t < rl.window_seconds)).length) < rl.max_requests) := by
    intro n
    unfold RateLimiter.is_allowed
    dsimp only
    split
    · rename_i h
      rw [eq_comm, decide_eq_false_iff_not]
      omega
    · rename_i h
      rw [eq_comm, decide_eq_true_eq]
      omega
  refine ⟨ha now, ?_, ?_, ?_⟩
  · intro hlen hall
    rw [ha now]
    have hfix : ((rl.get client).filter
        (fun t => now - t < rl.window_seconds)) = rl.get client := by
      rw [List.filter_eq_self]
      intro a hmem
      exact decide_eq_true (hall a hmem)
    rw [hfix, hlen]
    simp
  · intro hm hmin hlen
    rw [ha (m + rl.window_seconds)]
    rw [decide_eq_true_eq]
    have hlt : (((rl.get client).filter
        (fun t => (m + rl.window_seconds) - t < rl.window_seconds)).length) <
        (rl.get client).length := by
      rw [List.length_filter_lt_length_iff_exists]
      refine ⟨m, hm, ?_⟩
      simp
    omega
  · intro hen hden
    refine ⟨?_, ?_, ?_, ?_⟩ <;>
      simp [process_request, check_rate_limit, hen, hden]

/-- C6 witness: client "c" with 2 of 2 timestamps inside the window is
rejected at t=30 but allowed again at t=0+60, and the rate-limited
`process_request` leaves the token store untouched. -/
theorem c6_rate_limit_sliding_window_witness :
    (wRL.is_allowed (sL "c") 30).1 = false ∧
    (wRL.is_allowed (sL "c") 60).1 = true ∧
    (process_request wPrims wSM (sL "c") none 30 (sL "n")).2.1 = false ∧
    (process_request wPrims wSM (sL "c") none 30
        (sL "n")).1.token_manager = wSM.token_manager := by
  have h := c6_rate_limit_sliding_window wRL (sL "c") 30 0 wPrims wSM none
      (sL "n")
  refine ⟨h.2.1 (by decide) (by decide), h.2.2.1 (by decide) (by decide)
      (by decide), ?_, ?_⟩
  · exact (h.2.2.2 (by decide) (by decide)).1
  · exact (h.2.2.2 (by decide) (by decide)).2.2.1

/-! ### splitLastDot lemmas -/

theorem splitLastDot_eq_none (l : List Char) (h : '.' ∉ l) :
    splitLastDot l = none := by
  induction l with
  | nil => rfl
  | cons c rest ih =>
    simp only [List.mem_cons, not_or] at h
    unfold splitLastDot
    rw [ih h.2]
    simp only
    rw [if_neg (fun hc => h.1 hc.symm)]

theorem splitLastDot_append (q s : List Char) (hs : '.' ∉ s) :
    splitLastDot (q ++ '.' :: s) = some (q, s) := by
  induction q with
  | nil =>
    simp only [List.nil_append]
    unfold splitLastDot
    rw [splitLastDot_eq_none s hs]
    simp
  | cons c q ih =>
    simp only [List.cons_append]
    unfold splitLastDot
    rw [ih]

/-- Altering one character of a well-formed token `pe ++ '.' :: sig`
makes `validate_token` reject it as malformed or signature-mismatched,
provided the MAC has fixed 64-character output and no other message
collides with `pe` under this key. -/
theorem validate_altered_token (prims : CryptoPrims) (tm : TokenManager)
    (pe a b : Str) (c d : Char) (t : Int)
    (hpe : '.' ∉ pe)
    (hsg : '.' ∉ prims.hmacHex tm.secret_key pe)
    (hlen : ∀ m, (prims.hmacHex tm.secret_key m).length = 64)
    (hcoll : ∀ m, m ≠ pe →
      prims.hmacHex tm.secret_key m ≠ prims.hmacHex tm.secret_key pe)
    (hdecomp : pe ++ '.' :: prims.hmacHex tm.secret_key pe = a ++ d :: b)
    (hcd : c ≠ d) :
    (validate_token prims tm (a ++ c :: b) t).2.1 = false ∧
    ((validate_token prims tm (a ++ c :: b) t).2.2 =
        sL "Invalid token format" ∨
     (validate_token prims tm (a ++ c :: b) t).2.2 =
        sL "Invalid token signature") := by
  set sg := prims.hmacHex tm.secret_key pe with hsgdef
  rcases Nat.lt_trichotomy a.length pe.length with hlt | heq | hgt
  · -- the altered byte lies inside the encoded payload
    cases hdk : pe.drop a.length with
    | nil =>
      exfalso
      have := congrArg List.length hdk
      rw [List.length_drop] at this
      simp at this
      omega
    | cons e r =>
      set q := pe.take a.length with hqdef
      have hpe_split : pe = q ++ e :: r := by
        conv_lhs => rw [← List.take_append_drop a.length pe]
        rw [hdk]
      have hlen_take : q.length = a.length := by
        rw [hqdef, List.length_take]
        omega
      have hdecomp2 : q ++ e :: (r ++ '.' :: sg) = a ++ d :: b := by
        calc q ++ e :: (r ++ '.' :: sg)
            = (q ++ e :: r) ++ '.' :: sg := by
              simp [List.append_assoc]
          _ = pe ++ '.' :: sg := by rw [← hpe_split]
          _ = a ++ d :: b := hdecomp
      obtain ⟨hta, hcons⟩ := List.append_inj hdecomp2 hlen_take
      have hed : e = d := by injection hcons
      have hb : r ++ '.' :: sg = b := by injection hcons
      have haltered : a ++ c :: b = (q ++ c :: r) ++ '.' :: sg := by
        rw [← hta, ← hb]
        simp [List.append_assoc]
      have hsplit : splitLastDot (a ++ c :: b) = some (q ++ c :: r, sg) := by
        rw [haltered]
        exact splitLastDot_append _ _ hsg
      have hne : q ++ c :: r ≠ pe := by
        intro hEq
        rw [hpe_split] at hEq
        have h2 := List.append_cancel_left hEq
        have h3 : c = e := by injection h2
        exact hcd (h3.trans hed)
      have hneq : sg ≠ prims.hmacHex tm.secret_key (q ++ c :: r) := by
        rw [hsgdef]
        exact (hcoll _ hne).symm
      unfold validate_token
      rw [hsplit]
      dsimp only
      rw [if_pos hneq]
      exact ⟨rfl, Or.inr rfl⟩
  · -- the altered byte is the separator dot
    obtain ⟨hape, hrest⟩ := List.append_inj hdecomp heq.symm
    have hd : '.' = d := by injection hrest
    have hb : sg = b := by injection hrest
    have hnod : '.' ∉ a ++ c :: b := by
      rw [← hape, ← hb]
      simp only [List.mem_append, List.mem_cons, not_or]
      exact ⟨hpe, fun h => hcd (h.symm.trans hd), hsg⟩
    have hnone : splitLastDot (a ++ c :: b) = none :=
      splitLastDot_eq_none _ hnod
    unfold validate_token
    rw [hnone]
    exact ⟨rfl, Or.inl rfl⟩
  · -- the altered byte lies inside the signature
    have hsg64 : sg.length = 64 := hlen pe
    have hLlen : pe.length + (sg.length + 1) = a.length + (b.length + 1) := by
      have h2 := congrArg List.length hdecomp
      simpa using h2
    have hj : a.length - pe.length - 1 < sg.length := by omega
    cases hdk : sg.drop (a.length - pe.length - 1) with
    | nil =>
      exfalso
      have h2 := congrArg List.length hdk
      rw [List.length_drop] at h2
      simp at h2
      omega
    | cons e r =>
      have hrlen : r.length = sg.length - (a.length - pe.length - 1) - 1 := by
        have h2 := congrArg List.length hdk
        rw [List.length_drop] at h2
        simp at h2
        omega
      set q := sg.take (a.length - pe.length - 1) with hqdef
      have hsg_split : sg = q ++ e :: r := by
        conv_lhs => rw [← List.take_append_drop (a.length - pe.length - 1) sg]
        rw [hdk]
      have hqlen : q.length = a.length - pe.length - 1 := by
        rw [hqdef, List.length_take]
        omega
      have hlen2 : (pe ++ '.' :: q).length = a.length := by
        rw [List.length_append, List.length_cons, hqlen]
        omega
      have hdecomp2 : (pe ++ '.' :: q) ++ e :: r = a ++ d :: b := by
        calc (pe ++ '.' :: q) ++ e :: r
            = pe ++ '.' :: (q ++ e :: r) := by
              simp [List.append_assoc]
          _ = pe ++ '.' :: sg := by rw [← hsg_split]
          _ = a ++ d :: b := hdecomp
      obtain ⟨hta, hcons⟩ := List.append_inj hdecomp2 hlen2
      have hed : e = d := by injection hcons
      have hb : r = b := by injection hcons
      by_cases hc : c = '.'
      · -- the dot injected into the signature moves the split point
        have haltered : a ++ c :: b = (pe ++ '.' :: q) ++ '.' :: r := by
          rw [← hta, ← hb, hc]
        have hnod : '.' ∉ r := by
          intro hmem
          exact hsg (hsg_split ▸ List.mem_append_right _
            (List.mem_cons_of_mem _ hmem))
        have hsplit : splitLastDot (a ++ c :: b) =
            some (pe ++ '.' :: q, r) := by
          rw [haltered]
          exact splitLastDot_append _ _ hnod
        have hneq : r ≠ prims.hmacHex tm.secret_key (pe ++ '.' :: q) := by
          intro hEq
          have h2 := congrArg List.length hEq
          rw [hlen _] at h2
          omega
        unfold validate_token
        rw [hsplit]
        dsimp only
        rw [if_pos hneq]
        exact ⟨rfl, Or.inr rfl⟩
      · -- a non-dot byte replaced inside the signature
        have haltered : a ++ c :: b = pe ++ '.' :: (q ++ c :: r) := by
          rw [← hta, ← hb]
          simp [List.append_assoc]
        have hnod : '.' ∉ q ++ c :: r := by
          simp only [List.mem_append, List.mem_cons, not_or]
          refine ⟨fun h => hsg (hsg_split ▸ List.mem_append_left _ h),
            fun h => hc h.symm, fun h => ?_⟩
          exact hsg (hsg_split ▸ List.mem_append_right _
            (List.mem_cons_of_mem _ h))
        have hsplit : splitLastDot (a ++ c :: b) =
            some (pe, q ++ c :: r) := by
          rw [haltered]
          exact splitLastDot_append _ _ hnod
        have hne : q ++ c :: r ≠ sg := by
          intro hEq
          rw [hsg_split] at hEq
          have h2 := List.append_cancel_left hEq
          have h3 : c = e := by injection h2
          exact hcd (h3.trans hed)
        have hneq : q ++ c :: r ≠ prims.hmacHex tm.secret_key pe := by
          rw [← hsgdef]
          exact hne
        unfold validate_token
        rw [hsplit]
        dsimp only
        rw [if_pos hneq]
        exact ⟨rfl, Or.inr rfl⟩

/-- C5: token round-trip through `generate_token`/`validate_token`
(the path `authenticate_client` takes when no token is presented). A
freshly issued token validates as allowed with its client id at any time
up to its expiry; after expiry it is rejected as "Token expired"; and a
token differing from the issued one in any single character is rejected
as malformed or signature-mismatched, for any MAC with 64-character
dot-free output that is collision-free against the encoded payload. -/
theorem c5_token_round_trip (prims : CryptoPrims) (tm0 : TokenManager)
    (client nonce : Str) (now0 : Int)
    (hdec : prims.payloadDecode
        (prims.payloadEncode ⟨client, now0, now0 + 3600, nonce⟩) =
      some ⟨client, now0, now0 + 3600, nonce⟩)
    (hpd : '.' ∉ prims.payloadEncode ⟨client, now0, now0 + 3600, nonce⟩)
    (hsd : '.' ∉ prims.hmacHex tm0.secret_key
        (prims.payloadEncode ⟨client, now0, now0 + 3600, nonce⟩))
    (hlen : ∀ m, (prims.hmacHex tm0.secret_key m).length = 64)
    (hcoll : ∀ m, m ≠ prims.payloadEncode ⟨client, now0, now0 + 3600, nonce⟩ →
      prims.hmacHex tm0.secret_key m ≠
        prims.hmacHex tm0.secret_key
          (prims.payloadEncode ⟨client, now0, now0 + 3600, nonce⟩)) :
    (∀ t : Int, t ≤ now0 + 3600 →
      (validate_token prims
        (generate_token prims tm0 client now0 3600 nonce).1
        (generate_token prims tm0 client now0 3600 nonce).2 t).2 =
      (true, client)) ∧
    (∀ t : Int, t > now0 + 3600 →
      (validate_token prims
        (generate_token prims tm0 client now0 3600 nonce).1
        (generate_token prims tm0 client now0 3600 nonce).2 t).2 =
      (false, sL "Token expired")) ∧
    (∀ (a b : Str) (c d : Char) (t : Int),
      (generate_token prims tm0 client now0 3600 nonce).2 = a ++ d :: b →
      c ≠ d →
      (validate_token prims
        (generate_token prims tm0 client now0 3600 nonce).1
        (a ++ c :: b) t).2.1 = false ∧
      ((validate_token prims
          (generate_token prims tm0 client now0 3600 nonce).1
          (a ++ c :: b) t).2.2 = sL "Invalid token format" ∨
       (validate_token prims
          (generate_token prims tm0 client now0 3600 nonce).1
          (a ++ c :: b) t).2.2 = sL "Invalid token signature")) := by
  refine ⟨?_, ?_, ?_⟩
  · intro t ht
    have hexp : ¬ t > now0 + 3600 := by omega
    simp [generate_token, validate_token,
      splitLastDot_append _ _ hsd, hdec, hexp, List.lookup]
  · intro t ht
    simp [generate_token, validate_token,
      splitLastDot_append _ _ hsd, hdec, ht]
  · intro a b c d t hdecomp hcd
    exact validate_altered_token prims
      (generate_token prims tm0 client now0 3600 nonce).1
      (prims.payloadEncode ⟨client, now0, now0 + 3600, nonce⟩)
      a b c d t hpd hsd hlen hcoll hdecomp hcd

/-- C5 witness: the round trip at concrete oracles — validation at t=100
succeeds with the client id, at t=4000 reports expiry, and flipping the
token's first byte is rejected. -/
theorem c5_token_round_trip_witness :
    (validate_token wPrims
        (generate_token wPrims wTM (sL "c") 0 3600 (sL "n")).1
        (generate_token wPrims wTM (sL "c") 0 3600 (sL "n")).2 100).2 =
      (true, sL "c") ∧
    (validate_token wPrims
        (generate_token wPrims wTM (sL "c") 0 3600 (sL "n")).1
        (generate_token wPrims wTM (sL "c") 0 3600 (sL "n")).2 4000).2 =
      (false, sL "Token expired") ∧
    (validate_token wPrims
        (generate_token wPrims wTM (sL "c") 0 3600 (sL "n")).1
        (([] : Str) ++ 'q' ::
          ('.' :: wPrims.hmacHex wTM.secret_key wEnc)) 0).2.1 = false := by
  have hlen : ∀ m, (wPrims.hmacHex wTM.secret_key m).length = 64 := by
    intro m
    by_cases h : m = wEnc <;> simp [wPrims, h]
  have hcoll : ∀ m,
      m ≠ wPrims.payloadEncode ⟨sL "c", 0, 0 + 3600, sL "n"⟩ →
      wPrims.hmacHex wTM.secret_key m ≠
        wPrims.hmacHex wTM.secret_key
          (wPrims.payloadEncode ⟨sL "c", 0, 0 + 3600, sL "n"⟩) := by
    intro m hm
    have hm2 : m ≠ wEnc := hm
    simp only [wPrims, if_neg hm2]
    decide
  have h := c5_token_round_trip wPrims wTM (sL "c") (sL "n") 0 (by decide)
      (by decide) (by decide) hlen hcoll
  refine ⟨h.1 100 (by decide), h.2.1 4000 (by decide), ?_⟩
  exact (h.2.2 [] ('.' :: wPrims.hmacHex wTM.secret_key wEnc) 'q' 'p' 0
      (by decide) (by decide)).1

/-- Lookup of a key removed by `_cleanup_token`'s filter always misses. -/
theorem lookup_filter_ne (a : Str) (l : List (Str × StoredTok)) :
    (l.filter (fun kv => kv.1 ≠ a)).lookup a = none := by
  induction l with
  | nil => rfl
  | cons kv rest ih =>
    obtain ⟨k, v⟩ := kv
    rw [List.filter_cons]
    split
    · rename_i hkv
      have hne : k ≠ a := of_decide_eq_true hkv
      have hbeq : (a == k) = false := beq_eq_false_iff_ne.mpr (Ne.symm hne)
      simp only [List.lookup, hbeq]
      exact ih
    · exact ih

/-- C10: store membership is required, not just a valid signature and
timestamp. A token correctly signed with this manager's own key, whose
payload decodes and is unexpired, is still rejected with "Token not
found" whenever it is absent from the store — and revocation guarantees
absence: after `revoke_token` the token no longer resolves in the
store. -/
theorem c10_token_store_membership (prims : CryptoPrims)
    (tm : TokenManager) (pe : Str) (pl : TokenPayload) (t : Int)
    (hsd : '.' ∉ prims.hmacHex tm.secret_key pe)
    (hdec : prims.payloadDecode pe = some pl)
    (hexp : ¬ t > pl.expires_at)
    (habs : tm.tokens.lookup
      (pe ++ '.' :: prims.hmacHex tm.secret_key pe) = none) :
    validate_token prims tm
      (pe ++ '.' :: prims.hmacHex tm.secret_key pe) t =
      (tm, false, sL "Token not found") ∧
    (∀ (tm2 : TokenManager) (tok2 : Str),
      ((revoke_token tm2 tok2).1.tokens.lookup tok2) = none) := by
  constructor
  · simp [validate_token, splitLastDot_append _ _ hsd, hdec, hexp, habs]
  · intro tm2 tok2
    unfold revoke_token
    split
    · exact lookup_filter_ne tok2 tm2.tokens
    · rename_i h
      exact Option.not_isSome_iff_eq_none.mp (fun hs => h hs)

/-- C10 witness: a self-signed unexpired token against an empty store is
rejected as not found, and a revoked token is gone from the store. -/
theorem c10_token_store_membership_witness :
    validate_token wPrims wTM
      (wEnc ++ '.' :: wPrims.hmacHex wTM.secret_key wEnc) 0 =
      (wTM, false, sL "Token not found") ∧
    ((revoke_token ⟨sL "k", [(sL "t", ⟨sL "c", 0, 9⟩)]⟩
        (sL "t")).1.tokens.lookup (sL "t")) = none := by
  have h := c10_token_store_membership wPrims wTM wEnc wPayload 0 (by decide)
      (by decide) (by decide) rfl
  exact ⟨h.1, h.2 ⟨sL "k", [(sL "t", ⟨sL "c", 0, 9⟩)]⟩ (sL "t")⟩

end OpenDict
